import Mathlib

/-!
Shallow embedding of the drill HTTP load-testing engine (Rust sources under
src/), covering the plan loader's `pick` validation, the request action's
data-driven expansion, the baseline comparator and process exit code, the
rampup schedule, env/global merging, the tag filter, report status recording,
cookie serialization, the report writer/parser round trip, and the assert
action's structural comparison.

Machine integers (u16/u64/usize/i64) are modelled as `Nat`/`Int`; the values
involved never approach the wrap-around boundary in the properties below.
Durations (`f64` in the source) are modelled as rationals: the compared
quantities are only added, subtracted and ordered, operations on which the
claims do not depend on floating-point rounding.
-/

namespace Drill

/-- Report record (src/src/actions/mod.rs, struct Report): name, duration in
milliseconds, HTTP status. -/
structure Report where
  name : String
  duration : ℚ
  status : Nat
deriving Repr, DecidableEq

/-! Section: Comparator (src/src/checker.rs `compare`, src/src/main.rs `compare_benchmark`) -/

/-- One report vector compared against the baseline durations
(src/src/checker.rs lines 26-41): for position `i` the code reads
`items[i]["duration"]`, so running past the end of the baseline sequence is a
panic, modelled as `none`; otherwise the number of positions whose
`report.duration - baseline` exceeds the threshold is counted. -/
def countVec (threshold : ℚ) : List Report → List ℚ → Option Nat
  | [], _ => some 0
  | _ :: _, [] => none
  | r :: rs, b :: bs =>
    (countVec threshold rs bs).map fun n =>
      (if r.duration - b > threshold then 1 else 0) + n

/-- Total slow counter over all iteration report vectors
(src/src/checker.rs lines 25-42): each vector is enumerated from index 0
against the same baseline. `none` models the index-out-of-bounds panic. -/
def slowCount (listReports : List (List Report)) (baseline : List ℚ) (threshold : ℚ) : Option Nat :=
  match listReports with
  | [] => some 0
  | rv :: rest => do
    let c ← countVec threshold rv baseline
    let cs ← slowCount rest baseline threshold
    pure (c + cs)

/-- Return value of `compare` (src/src/checker.rs lines 44-48): `Ok(())` when
the slow counter is zero, else `Err(slow_counter)`. -/
def compare (listReports : List (List Report)) (baseline : List ℚ) (threshold : ℚ) :
    Option (Except Nat Unit) :=
  (slowCount listReports baseline threshold).map fun n =>
    if n = 0 then .ok () else .error n

/-- Process exit code chosen by `compare_benchmark` (src/src/main.rs lines
343-346): `Ok(_) => exit(0)`, `Err(_) => exit(1)` — the error payload is
discarded. -/
def compareExitCode (r : Except Nat Unit) : Nat :=
  match r with
  | .ok _ => 0
  | .error _ => 1

/-- Specification-side count of slow steps: positions of each report vector
zipped with the baseline where the duration delta exceeds the threshold. -/
def slowSpec (listReports : List (List Report)) (baseline : List ℚ) (threshold : ℚ) : Nat :=
  (listReports.map fun rv =>
    ((rv.zip baseline).filter fun p => p.1.duration - p.2 > threshold).length).sum

/-! Section: Rampup schedule (src/src/benchmark.rs `run_iteration`, lines 99-102) -/

/-- Seconds slept before iteration `i` starts: the code computes
`delay = rampup / iterations` in unsigned integer (truncating) division and
sleeps `delay * iteration` seconds, and only when `rampup > 0`. -/
def rampupDelay (rampup iterations iteration : Nat) : Nat :=
  if rampup > 0 then (rampup / iterations) * iteration else 0

/-! Section: env/global merge (src/src/config.rs `Config::new`, line 83) -/

/-- Overwriting insert on an association list, modelling `BTreeMap` key
update: the existing binding for the key, if any, is replaced. -/
def insertOverwrite (l : List (String × String)) (k v : String) : List (String × String) :=
  match l with
  | [] => [(k, v)]
  | (k', v') :: rest =>
    if k' = k then (k, v) :: rest else (k', v') :: insertOverwrite rest k v

/-- `global.append(&mut env_contents)` (src/src/config.rs line 83):
`BTreeMap::append` moves every entry of `env` into `global`, and for a key
present in both the value from `env` overwrites the value already in
`global`. -/
def mergedGlobal (global env : List (String × String)) : List (String × String) :=
  env.foldl (fun acc kv => insertOverwrite acc kv.1 kv.2) global

/-! Section: Tag filter (src/src/tags.rs `Tags::should_skip_item`, lines 27-57) -/

/-- CLI tag sets (src/src/tags.rs struct Tags); the hash sets are modelled as
lists queried only through membership. -/
structure Tags where
  tags : List String
  skipTags : List String

/-- `HashSet::is_disjoint`: no common member. -/
def disjointL (a b : List String) : Bool :=
  a.all fun x => !(b.contains x)

/-- Faithful transcription of `Tags::should_skip_item` (src/src/tags.rs lines
27-57); `itemTags` is `none` when the item has no `tags` key. -/
def Tags.shouldSkipItem (t : Tags) (itemTags : Option (List String)) : Bool :=
  match itemTags with
  | none => false
  | some its =>
    if its.isEmpty then false
    else if !(disjointL t.skipTags its) then true
    else if its.contains "never" && !(t.tags.contains "never") then true
    else if !(disjointL t.tags its) then false
    else if its.contains "always" then false
    else if its.contains "never" then true
    else true

/-! Section: Report status recording (src/src/actions/request.rs
`execute_one_request`, lines 254-267) -/

/-- Status stored in the pushed Report: the dispatch outcome is `None` on a
transport error (no HTTP response), in which case 520 is recorded; otherwise
the received response's own status code is recorded. -/
def reportStatus : Option Nat → Nat
  | none => 520
  | some s => s

/-! Section: Pick validation and data-driven expansion
(src/src/parse.rs `Pick::validate` lines 213-222,
src/src/actions/request.rs `Runnable::execute` lines 310-324) -/

/-- `Pick::validate`: panics (false) when the configured value is negative or
exceeds the item list length, accepts (true) otherwise. `self.0 as usize` on
the checked non-negative value is `Int.toNat`. -/
def pickValidate (pick : Int) (items : List α) : Bool :=
  if pick < 0 then false
  else if pick.toNat > items.length then false
  else true

/-- Items handed to `execute_one_request` by `Runnable::execute for Request`:
with an empty `with_items` list the request runs once with no injected item
(`none`); otherwise the (possibly shuffled) clone of the list is truncated by
`take(pick)` and each kept item produces one sub-request. The shuffle is
modelled by passing the reordered list explicitly; theorems relate it to the
original by permutation. -/
def requestExecuteItems (withItems shuffled : List α) (pick : Nat) : List (Option α) :=
  if withItems.isEmpty then [none]
  else (shuffled.take pick).map some

/-! Section: JSON values

serde_json / serde_yaml values are embedded as `Json`. Numbers are modelled
as integers: every number appearing in the claims is a small integer, on
which the source's `f64` comparisons and renderings are exact. Object
members model `serde_json::Map` (a `BTreeMap`), whose iteration order is
ascending by key; parsing into a map sorts and deduplicates accordingly. -/
inductive Json where
  | null
  | bool (b : Bool)
  | num (n : Int)
  | str (s : String)
  | arr (elems : List Json)
  | obj (members : List (String × Json))
deriving Inhabited

/-- JSON string escaping as in serde_json for the characters relevant here:
a quote or backslash is backslash-escaped, all other characters pass
through. -/
def escChar (c : Char) : List Char :=
  if c = '"' || c = '\\' then ['\\', c] else [c]

/-- Compact JSON rendering of a string literal. -/
def renderStrLit (s : String) : String :=
  "\"" ++ String.mk (s.data.flatMap escChar) ++ "\""

/-- Comma-separated join. -/
def joinComma (l : List String) : String :=
  match l with
  | [] => ""
  | h :: t => t.foldl (fun a b => a ++ "," ++ b) h

mutual
/-- Compact JSON encoding, as produced by `serde_json::to_string` and by the
`Display` impl of `serde_json::Value`. -/
def renderJson : Json → String
  | .null => "null"
  | .bool b => if b then "true" else "false"
  | .num n => toString n
  | .str s => renderStrLit s
  | .arr es => "[" ++ joinComma (renderJsonList es) ++ "]"
  | .obj ms => "\x7b" ++ joinComma (renderJsonMembers ms) ++ "\x7d"

/-- Renders each array element. -/
def renderJsonList : List Json → List String
  | [] => []
  | e :: es => renderJson e :: renderJsonList es

/-- Renders each object member as `"key":value`. -/
def renderJsonMembers : List (String × Json) → List String
  | [] => []
  | (k, v) :: ms => (renderStrLit k ++ ":" ++ renderJson v) :: renderJsonMembers ms
end

/-! Section: JSON parsing (model of serde_json deserialization of compact JSON) -/

/-- Parses a JSON string literal body after the opening quote, undoing the
backslash escapes; returns the content and the remainder after the closing
quote. -/
def parseStrBody : List Char → Option (List Char × List Char)
  | [] => none
  | '"' :: rest => some ([], rest)
  | '\\' :: e :: rest => (parseStrBody rest).map fun p => (e :: p.1, p.2)
  | '\\' :: [] => none
  | c :: rest => (parseStrBody rest).map fun p => (c :: p.1, p.2)

/-- Consumes a maximal run of leading decimal digits. -/
def parseDigits : List Char → (List Char × List Char)
  | [] => ([], [])
  | c :: rest =>
    if c.isDigit then
      let p := parseDigits rest
      (c :: p.1, p.2)
    else ([], c :: rest)

/-- Digit characters to a natural number. -/
def digitsToNat (l : List Char) : Nat :=
  l.foldl (fun a c => a * 10 + (c.toNat - 48)) 0

/-- Parses an integer numeral token (optional minus sign, then digits). -/
def parseNumTok (cs : List Char) : Option (Int × List Char) :=
  match cs with
  | '-' :: rest =>
    let p := parseDigits rest
    if p.1.isEmpty then none else some (-(digitsToNat p.1 : Int), p.2)
  | _ =>
    let p := parseDigits cs
    if p.1.isEmpty then none else some ((digitsToNat p.1 : Int), p.2)

mutual
/-- Fuel-based recursive-descent parser for compact JSON values; `none` on
malformed input or exhausted fuel. -/
def parseVal : Nat → List Char → Option (Json × List Char)
  | 0, _ => none
  | fuel + 1, cs =>
    match cs with
    | 'n' :: 'u' :: 'l' :: 'l' :: rest => some (.null, rest)
    | 't' :: 'r' :: 'u' :: 'e' :: rest => some (.bool true, rest)
    | 'f' :: 'a' :: 'l' :: 's' :: 'e' :: rest => some (.bool false, rest)
    | '"' :: rest => (parseStrBody rest).map fun p => (.str (String.mk p.1), p.2)
    | '[' :: ']' :: rest => some (.arr [], rest)
    | '[' :: rest => (parseElems fuel rest).map fun p => (.arr p.1, p.2)
    | '{' :: '}' :: rest => some (.obj [], rest)
    | '{' :: rest => (parseMembers fuel rest).map fun p => (.obj p.1, p.2)
    | _ => (parseNumTok cs).map fun p => (.num p.1, p.2)

/-- Parses the comma-separated elements of a non-empty array up to `]`. -/
def parseElems : Nat → List Char → Option (List Json × List Char)
  | 0, _ => none
  | fuel + 1, cs => do
    let (v, r) ← parseVal fuel cs
    match r with
    | ',' :: r' => (parseElems fuel r').map fun p => (v :: p.1, p.2)
    | ']' :: r' => some ([v], r')
    | _ => none

/-- Parses the comma-separated members of a non-empty object up to `}`. -/
def parseMembers : Nat → List Char → Option (List (String × Json) × List Char)
  | 0, _ => none
  | fuel + 1, cs =>
    match cs with
    | '"' :: rest => do
      let (k, r) ← parseStrBody rest
      match r with
      | ':' :: r' => do
        let (v, rr) ← parseVal fuel r'
        match rr with
        | ',' :: rr' => (parseMembers fuel rr').map fun p => ((String.mk k, v) :: p.1, p.2)
        | '}' :: rr' => some ([(String.mk k, v)], rr')
        | _ => none
      | _ => none
    | _ => none
end

/-- Insert into a key-sorted association list, replacing an equal key:
models insertion into a `BTreeMap`/`serde_json::Map`. -/
def insertSorted (k : String) (v : α) : List (String × α) → List (String × α)
  | [] => [(k, v)]
  | (k', v') :: rest =>
    if k < k' then (k, v) :: (k', v') :: rest
    else if k = k' then (k, v) :: rest
    else (k', v') :: insertSorted k v rest

/-- Collecting parsed members into a `serde_json::Map` (a `BTreeMap`): keys
end up in ascending order and a later duplicate overwrites an earlier one. -/
def sortDedupMembers (l : List (String × α)) : List (String × α) :=
  l.foldl (fun acc kv => insertSorted kv.1 kv.2 acc) []

/-- Model of `serde_json::from_str::<Vec<String>>`: the whole input must be a
JSON array whose elements are all strings, otherwise the `unwrap` panics
(`none`). -/
def parseVecString (s : String) : Option (List String) :=
  match parseVal (2 * s.data.length + 2) s.data with
  | some (.arr es, []) =>
    es.mapM fun e =>
      match e with
      | .str st => some st
      | _ => none
  | _ => none

/-- Model of `serde_json::from_str::<Map<String, Value>>`: the whole input
must be a JSON object; its members are collected into a sorted map. -/
def parseMapJson (s : String) : Option (List (String × Json)) :=
  match parseVal (2 * s.data.length + 2) s.data with
  | some (.obj ms, []) => some (sortDedupMembers ms)
  | _ => none

/-- Model of Rust's `str::parse::<bool>`: exactly `true` or `false`. -/
def parseBoolStr (s : String) : Option Bool :=
  if s = "true" then some true
  else if s = "false" then some false
  else none

/-- Model of `str::parse::<f64>` restricted to the integer numerals occurring
here (on which the parse and the comparison are exact). -/
def parseNumStr (s : String) : Option Int :=
  match parseNumTok s.data with
  | some (n, []) => some n
  | _ => none

/-! Section: Assert structural comparison (src/src/actions/assert.rs `eq`,
lines 61-99) -/

/-- The array branch of `eq` as a traversal parameterized by the element
comparison: `arr.iter().zip(deser_rhs).map(eq).all(|b| b)` — the zip stops at
the shorter side and `all` short-circuits on the first false; a panic inside
an evaluated element comparison propagates. -/
def eqList (f : Json → String → Option Bool) : List (Json × String) → Option Bool
  | [] => some true
  | (l, r) :: rest =>
    match f l r with
    | none => none
    | some false => some false
    | some true => eqList f rest

/-- The object branch of `eq` as a traversal parameterized by the value
comparison: members zipped positionally; for each pair the source builds the
two-element array `[key_eq, value_eq]` eagerly, so the recursive value
comparison runs (and can panic) even when the keys differ; the outer `all`
short-circuits on the first false pair. -/
def eqObjList (f : Json → String → Option Bool) :
    List ((String × Json) × (String × Json)) → Option Bool
  | [] => some true
  | (lm, rm) :: rest =>
    match f lm.2 (renderJson rm.2) with
    | none => none
    | some veq => if lm.1 == rm.1 && veq then eqObjList f rest else some false

/-- Faithful transcription of `eq`: the expected (plan-literal) value against
the string rendering of the actual value. `none` models a panic (null
expected value, failed parse/unwrap, or exhausted fuel — a modelling
artifact, spent once per nesting level and quantified away in the theorems).
`resolve` is the interpolator's string resolution, applied to expected
string values exactly as in the source. -/
def eqJ (resolve : String → String) : Nat → Json → String → Option Bool
  | 0, _, _ => none
  | fuel + 1, lhs, rhs =>
    match lhs with
    | .null => none
    | .bool b => (parseBoolStr rhs).map fun pb => b == pb
    | .num n => (parseNumStr rhs).map fun m => n == m
    | .str s => some (resolve s == rhs)
    | .arr es => (parseVecString rhs).bind fun ss => eqList (eqJ resolve fuel) (es.zip ss)
    | .obj ms => (parseMapJson rhs).bind fun pms => eqObjList (eqJ resolve fuel) (ms.zip pms)

/-- Modelled from the spec: the Interpolator module (`src/interpolator.rs`,
declared in main.rs but absent from the sources) renders a context value per
§4.1 — strings as themselves without quotes, numbers and booleans in
canonical text form, arrays and objects as compact JSON. -/
def renderInterp : Json → String
  | .str s => s
  | .bool b => if b then "true" else "false"
  | .num n => toString n
  | v => renderJson v

/-- Assert execution outcome (src/src/actions/assert.rs lines 35-52): the
actual context value is rendered by the interpolator and compared by `eq`
with the expected literal; `some false` aborts the run, `none` is a panic. -/
def assertEq (resolve : String → String) (fuel : Nat) (expected actual : Json) : Option Bool :=
  eqJ resolve fuel expected (renderInterp actual)

/-! Section: Cookie serialization and propagation
(src/src/actions/request.rs lines 192-206 and 269-272,
src/src/benchmark.rs lines 104-109) -/

/-- `Vec::join(";")`. -/
def joinSemi (l : List String) : String :=
  match l with
  | [] => ""
  | h :: t => t.foldl (fun a b => a ++ ";" ++ b) h

/-- Serialization of the cookie map into the Cookie header value
(request.rs line 197): `format!("{key}={value}")` joined by `;`, where
`{value}` is the `Display` of the JSON value — a string cookie therefore
renders with surrounding quotes. -/
def serializeCookies (cookies : List (String × Json)) : String :=
  joinSemi (cookies.map fun kv => kv.1 ++ "=" ++ renderJson kv.2)

/-- Header attachment (request.rs lines 195-200): a Cookie header is attached
iff the context has a `cookies` entry; the entry is deserialized as a map
(panic — outer `none` — when it is not an object, via
`serde_json::from_value`), whose sorted entries are serialized. `some none`
means no Cookie header, `some (some s)` a header with value `s`. -/
def cookieHeader (ctx : List (String × Json)) : Option (Option String) :=
  match ctx.lookup "cookies" with
  | none => some none
  | some (.obj ms) => some (some (serializeCookies (sortDedupMembers ms)))
  | some _ => none

/-- Context update, modelling insertion into the `serde_json::Map` backing
the Context. -/
def ctxInsert (ctx : List (String × Json)) (k : String) (v : Json) : List (String × Json) :=
  insertSorted k v ctx

/-- Cookie accumulation after a response (request.rs lines 269-272): each
response cookie is inserted into the `cookies` object, created as `{}` when
absent (`entry("cookies").or_insert_with(|| json!({}))`); a non-object
`cookies` entry makes `as_object_mut().unwrap()` panic (`none`). -/
def applyCookies (ctx : List (String × Json)) :
    List (String × String) → Option (List (String × Json))
  | [] => some ctx
  | (n, v) :: rest =>
    match ctx.lookup "cookies" with
    | some (.obj ms) =>
      applyCookies (ctxInsert ctx "cookies" (.obj (insertSorted n (.str v) ms))) rest
    | none =>
      applyCookies (ctxInsert ctx "cookies" (.obj [(n, .str v)])) rest
    | some _ => none

/-- Fresh per-iteration context (src/src/benchmark.rs lines 104-109): seeded
with `iteration`, `urls` and `global` only — in particular no `cookies`
entry. -/
def freshContext (iteration : String) (urls global : Json) : List (String × Json) :=
  ctxInsert (ctxInsert (ctxInsert [] "iteration" (.str iteration)) "urls" urls) "global" global

/-! Section: Report writer and baseline parser round trip
(src/src/actions/mod.rs `Display for Report` lines 67-75,
src/src/benchmark.rs `join` lines 118-123, spec §6.5) -/

/-- Splits a character sequence at newlines ("lines" of the emitted text). -/
def splitNl : List Char → List (List Char)
  | [] => [[]]
  | c :: rest =>
    if c = '\n' then [] :: splitNl rest
    else
      match splitNl rest with
      | l :: ls => (c :: l) :: ls
      | [] => [[c]]

/-- Strips an expected leading character sequence, returning the remainder. -/
def stripPre : List Char → List Char → Option (List Char)
  | [], l => some l
  | _ :: _, [] => none
  | p :: ps, c :: cs => if p = c then stripPre ps cs else none

/-- A report in textual form: duration and status stand for their `Display`
renderings (Rust guarantees the `f64` `Display`/`FromStr` round trip is
exact, so equality of the numeral strings captures equality of the values;
`f64` itself is not shallowly embeddable). -/
structure ReportText where
  name : List Char
  duration : List Char
  status : List Char
deriving Repr, DecidableEq

/-- Characters of the literal `- name: `. -/
def namePre : List Char := ['-', ' ', 'n', 'a', 'm', 'e', ':', ' ']

/-- Characters of the literal `  duration: `. -/
def durPre : List Char := [' ', ' ', 'd', 'u', 'r', 'a', 't', 'i', 'o', 'n', ':', ' ']

/-- Characters of the literal `  status: `. -/
def staPre : List Char := [' ', ' ', 's', 't', 'a', 't', 'u', 's', ':', ' ']

/-- One record as written by `Display for Report` (src/src/actions/mod.rs
lines 67-75): `"\n- name: {}\n  duration: {}\n  status: {}\n"`. -/
def reportChars (r : ReportText) : List Char :=
  '\n' :: (namePre ++ r.name ++
    '\n' :: (durPre ++ r.duration ++
      '\n' :: (staPre ++ r.status ++ ['\n'])))

/-- The code's `join` (src/src/benchmark.rs lines 118-123): left fold that
prepends the separator to every piece after a non-empty accumulator. -/
def joinFold (l : List (List Char)) (sep : List Char) : List Char :=
  l.foldl (fun a b => (if a.isEmpty then a else a ++ sep) ++ b) []

/-- Report-mode output (src/src/benchmark.rs line 193): the records rendered
by `Display` joined with the empty separator. -/
def writeReports (rs : List ReportText) : List Char :=
  joinFold (rs.map reportChars) []

/-- Modelled from the spec: the baseline report parser (§6.5) — realized in
src/src/checker.rs through the external serde_yaml crate, which is not part
of this repository — reads a sequence of `- name / duration / status`
records, with blank lines allowed between records. -/
def parseRecords : List (List Char) → Option (List ReportText)
  | [] => some []
  | [] :: rest => parseRecords rest
  | l1 :: l2 :: l3 :: rest => do
    let n ← stripPre namePre l1
    let d ← stripPre durPre l2
    let s ← stripPre staPre l3
    let tail ← parseRecords rest
    pure (⟨n, d, s⟩ :: tail)
  | _ => none

/-- Parses emitted report text back into records. -/
def parseReportText (cs : List Char) : Option (List ReportText) :=
  parseRecords (splitNl cs)

/-! Section: helper lemmas -/

theorem countVec_eq_of_le (t : ℚ) :
    ∀ (rv : List Report) (b : List ℚ), rv.length ≤ b.length →
      countVec t rv b =
        some ((rv.zip b).filter fun p => p.1.duration - p.2 > t).length := by
  intro rv
  induction rv with
  | nil => intro b _; simp [countVec]
  | cons r rs ih =>
    intro b hb
    cases b with
    | nil => simp at hb
    | cons q bs =>
      simp only [List.length_cons, Nat.add_le_add_iff_right] at hb
      simp only [countVec, ih bs hb, Option.map_some', List.zip_cons_cons,
        List.filter_cons]
      by_cases hc : r.duration - q > t
      · simp [hc, Nat.add_comm]
      · simp [hc]

theorem countVec_append_of_le (t : ℚ) :
    ∀ (rv : List Report) (b extra : List ℚ), rv.length ≤ b.length →
      countVec t rv (b ++ extra) = countVec t rv b := by
  intro rv
  induction rv with
  | nil => intro b extra _; simp [countVec]
  | cons r rs ih =>
    intro b extra hb
    cases b with
    | nil => simp at hb
    | cons q bs =>
      simp only [List.length_cons, Nat.add_le_add_iff_right] at hb
      simp only [List.cons_append, countVec]
      rw [show (bs.append extra) = bs ++ extra from rfl, ih bs extra hb]

theorem slowCount_eq_of_le (lrs : List (List Report)) (baseline : List ℚ) (t : ℚ)
    (h : ∀ rv ∈ lrs, rv.length ≤ baseline.length) :
    slowCount lrs baseline t = some (slowSpec lrs baseline t) := by
  induction lrs with
  | nil => simp [slowCount, slowSpec]
  | cons rv rest ih =>
    have h1 : rv.length ≤ baseline.length := h rv (List.mem_cons_self _ _)
    have h2 : ∀ rv' ∈ rest, rv'.length ≤ baseline.length :=
      fun rv' hm => h rv' (List.mem_cons_of_mem _ hm)
    simp only [slowCount, countVec_eq_of_le t rv baseline h1, ih h2, slowSpec,
      List.map_cons, List.sum_cons, Option.bind_eq_bind, Option.some_bind,
      Option.pure_def]

theorem lookup_cons {α : Type} (a : String) (b : α) (rest : List (String × α)) (q : String) :
    List.lookup q ((a, b) :: rest) = if q = a then some b else List.lookup q rest := by
  by_cases h : q = a
  · subst h; simp [List.lookup]
  · have hb : (q == a) = false := beq_eq_false_iff_ne.mpr h
    simp [List.lookup, hb, h]

theorem lookup_insertOverwrite (k v : String) :
    ∀ (l : List (String × String)) (q : String),
      (insertOverwrite l k v).lookup q = if q = k then some v else l.lookup q := by
  intro l
  induction l with
  | nil =>
    intro q
    simp only [insertOverwrite, lookup_cons]
  | cons av rest ih =>
    intro q
    obtain ⟨a, b⟩ := av
    simp only [insertOverwrite]
    by_cases hak : a = k
    · rw [if_pos hak]
      subst hak
      simp only [lookup_cons]
      by_cases hq : q = a <;> simp [hq]
    · rw [if_neg hak]
      simp only [lookup_cons, ih]
      by_cases hq : q = a <;> by_cases hqk : q = k
      · exact absurd (hq.symm.trans hqk) hak
      · simp [hq, hqk, hak]
      · simp [hq, hqk, Ne.symm hak]
      · simp [hq, hqk]

theorem lookup_eq_none_of_not_mem_keys :
    ∀ (l : List (String × String)) (k : String), k ∉ l.map Prod.fst →
      l.lookup k = none := by
  intro l
  induction l with
  | nil => intro k _; simp [List.lookup]
  | cons av rest ih =>
    intro k hk
    obtain ⟨a, b⟩ := av
    simp only [List.map_cons, List.mem_cons, not_or] at hk
    rw [lookup_cons, if_neg hk.1, ih k hk.2]

theorem lookup_insertSorted {α : Type} (k : String) (v : α) :
    ∀ (l : List (String × α)) (q : String),
      (insertSorted k v l).lookup q = if q = k then some v else l.lookup q := by
  intro l
  induction l with
  | nil =>
    intro q
    simp only [insertSorted, lookup_cons]
  | cons av rest ih =>
    intro q
    obtain ⟨a, b⟩ := av
    simp only [insertSorted]
    by_cases hlt : k < a
    · rw [if_pos hlt]
      simp only [lookup_cons]
    · rw [if_neg hlt]
      by_cases hak : k = a
      · rw [if_pos hak]
        subst hak
        simp only [lookup_cons]
        by_cases hq : q = k <;> simp [hq]
      · rw [if_neg hak]
        simp only [lookup_cons, ih]
        by_cases hq : q = a <;> by_cases hqk : q = k
        · exact absurd (hqk.symm.trans hq) hak
        · simp [hq, hqk, Ne.symm hak]
        · simp [hq, hqk, hak]
        · simp [hq, hqk]

theorem slowCount_append_of_le (lrs : List (List Report)) (baseline extra : List ℚ)
    (t : ℚ) (h : ∀ rv ∈ lrs, rv.length ≤ baseline.length) :
    slowCount lrs (baseline ++ extra) t = slowCount lrs baseline t := by
  induction lrs with
  | nil => simp [slowCount]
  | cons rv rest ih =>
    have h1 : rv.length ≤ baseline.length := h rv (List.mem_cons_self _ _)
    have h2 : ∀ rv' ∈ rest, rv'.length ≤ baseline.length :=
      fun rv' hm => h rv' (List.mem_cons_of_mem _ hm)
    simp only [slowCount, countVec_append_of_le t rv baseline extra h1, ih h2]

/-! Section: Claim C1 -/

/-- Claim C1 counterexample: with an item list of length L = 2 the loader
accepts pick K = 0, but the Request action then issues 0 sub-requests —
not all L = 2 as the claim ("pick == 0 means take all") states. -/
theorem c1_counterexample :
    pickValidate 0 (["a", "b"] : List String) = true ∧
    (requestExecuteItems (["a", "b"] : List String) ["a", "b"] 0).length = 0 := by
  refine ⟨by decide, by decide⟩

/-- Claim C1 (amended): for a with_items list of length L, a pick K with
0 ≤ K ≤ L is accepted and a negative pick or a pick > L is rejected fatally
at load time; the Request action then issues exactly K sub-requests whenever
the item list is non-empty — including zero sub-requests when K = 0 ("take
all" is realized by the pick defaulting to L when absent, not by K = 0). -/
theorem c1_pick_subrequests {α : Type} (items shuffled : List α)
    (hperm : shuffled.Perm items) (K : Nat) (hK : K ≤ items.length)
    (hne : items ≠ []) :
    pickValidate (K : Int) items = true ∧
    (∀ J : Int, J < 0 → pickValidate J items = false) ∧
    pickValidate ((items.length : Int) + 1) items = false ∧
    (requestExecuteItems items shuffled K).length = K := by
  refine ⟨?_, ?_, ?_, ?_⟩
  · unfold pickValidate
    rw [if_neg (not_lt.mpr (Int.natCast_nonneg K))]
    rw [if_neg (by simpa using not_lt.mpr hK)]
  · intro J hJ
    unfold pickValidate
    rw [if_pos hJ]
  · unfold pickValidate
    rw [if_neg (by omega), if_pos (by omega)]
  · unfold requestExecuteItems
    rw [if_neg (by simp [hne])]
    have hlen : shuffled.length = items.length := hperm.length_eq
    simp [List.length_take, hlen, Nat.min_eq_left hK]

/-- Claim C1 witness: the amended theorem at items = ["a", "b"], the shuffled
permutation ["b", "a"], and K = 1. -/
theorem c1_pick_subrequests_witness :
    pickValidate ((1 : Nat) : Int) (["a", "b"] : List String) = true ∧
    (∀ J : Int, J < 0 → pickValidate J (["a", "b"] : List String) = false) ∧
    pickValidate (((["a", "b"] : List String).length : Int) + 1) ["a", "b"] = false ∧
    (requestExecuteItems (["a", "b"] : List String) ["b", "a"] 1).length = 1 :=
  c1_pick_subrequests ["a", "b"] ["b", "a"] (by decide) 1 (by decide) (by decide)

/-! Section: Claim C3 -/

/-- Claim C3 counterexample: with rampup R = 5, iterations N = 2 and
iteration i = 1 the code sleeps `(5 / 2) * 1 = 2` seconds, which is less
than R*i/N = 5/2 — iteration 1 can start earlier than t0 + R*i/N, refuting
the claimed lower bound. -/
theorem c3_counterexample :
    rampupDelay 5 2 1 = 2 ∧ ¬((rampupDelay 5 2 1 : ℚ) ≥ 5 * 1 / 2) := by
  refine ⟨by decide, ?_⟩
  rw [show rampupDelay 5 2 1 = 2 by decide]
  norm_num

/-- Claim C3 (amended): the pre-iteration sleep for iteration i is exactly
`(R / N) * i` seconds with truncating natural division — at most R*i/N, and
equal to R*i/N (the claimed bound) exactly when N divides R. -/
theorem c3_rampup_floor (R N i : Nat) (hR : 0 < R) (hN : 0 < N) :
    rampupDelay R N i = (R / N) * i ∧
    ((rampupDelay R N i : ℚ) ≤ (R : ℚ) * (i : ℚ) / (N : ℚ)) ∧
    (N ∣ R → (rampupDelay R N i : ℚ) = (R : ℚ) * (i : ℚ) / (N : ℚ)) := by
  have hrd : rampupDelay R N i = (R / N) * i := if_pos hR
  refine ⟨hrd, ?_, ?_⟩
  · rw [hrd]
    push_cast
    have h1 : ((R / N : Nat) : ℚ) ≤ (R : ℚ) / (N : ℚ) := Nat.cast_div_le
    calc ((R / N : Nat) : ℚ) * (i : ℚ) ≤ (R : ℚ) / (N : ℚ) * (i : ℚ) :=
          mul_le_mul_of_nonneg_right h1 (by positivity)
      _ = (R : ℚ) * (i : ℚ) / (N : ℚ) := by ring
  · intro hdvd
    obtain ⟨c, hc⟩ := hdvd
    subst hc
    rw [hrd, Nat.mul_div_cancel_left c hN]
    have hN' : (N : ℚ) ≠ 0 := Nat.cast_ne_zero.mpr hN.ne'
    push_cast
    field_simp
    ring

/-- Claim C3 witness: the amended theorem at R = 4, N = 2, i = 3. -/
theorem c3_rampup_floor_witness :
    rampupDelay 4 2 3 = (4 / 2) * 3 ∧
    ((rampupDelay 4 2 3 : ℚ) ≤ ((4 : Nat) : ℚ) * ((3 : Nat) : ℚ) / ((2 : Nat) : ℚ)) ∧
    ((2 : Nat) ∣ 4 →
      (rampupDelay 4 2 3 : ℚ) = ((4 : Nat) : ℚ) * ((3 : Nat) : ℚ) / ((2 : Nat) : ℚ)) :=
  c3_rampup_floor 4 2 3 (by decide) (by decide)

/-! Section: Claim C5 -/

/-- Claim C5 (code bug): evaluating `should_skip_item` at an item tagged
[tag1, tag2] with empty include-tags and empty skip-tags: the code returns
true (the item is skipped), although the claim — and the repository's own
unit test `empty_tags` in src/src/tags.rs — require such an item to be kept
when the include-tags set is empty. -/
theorem c5_code_evaluation :
    Tags.shouldSkipItem ⟨[], []⟩ (some ["tag1", "tag2"]) = true := by decide

/-! Section: Claim C6 -/

/-- Claim C6 counterexample: a received HTTP response whose own status code
is 520 is recorded as status 520, so `status == 520` does not imply that no
response was received — the claimed equivalence fails. -/
theorem c6_counterexample :
    reportStatus (some 520) = 520 ∧ (some 520 : Option Nat) ≠ none :=
  ⟨rfl, by simp⟩

/-- Claim C6 (amended): a transport failure is always recorded as 520 and a
received response is always recorded with its own status code; consequently
`status == 520` is equivalent to "no HTTP response was received" exactly when
the received status, if any, is not itself 520. -/
theorem c6_status_sentinel (res : Option Nat) (h : ∀ s, res = some s → s ≠ 520) :
    reportStatus none = 520 ∧ (∀ s, reportStatus (some s) = s) ∧
    (reportStatus res = 520 ↔ res = none) := by
  refine ⟨rfl, fun s => rfl, ?_⟩
  cases res with
  | none => simp [reportStatus]
  | some s =>
    have hs := h s rfl
    simp [reportStatus, hs]

/-- Claim C6 witness: the amended theorem at a received 200 response. -/
theorem c6_status_sentinel_witness :
    reportStatus none = 520 ∧ (∀ s, reportStatus (some s) = s) ∧
    (reportStatus (some 200) = 520 ↔ (some 200 : Option Nat) = none) :=
  c6_status_sentinel (some 200) (by intro s hs; cases hs; decide)

/-! Section: Claim C2 -/

/-- Claim C2 counterexample: a run with two regressed steps (durations 160
and 200 against baseline durations 100 and 100, threshold 50): the
comparator returns Err(2) — the count of slow steps — but the process exit
code chosen by `compare_benchmark` is 1, not 2, refuting the claim that the
count is used as the exit code. -/
theorem c2_counterexample :
    compare [[⟨"A", 160, 200⟩, ⟨"B", 200, 200⟩]] [100, 100] 50
      = some (.error 2) ∧
    (compare [[⟨"A", 160, 200⟩, ⟨"B", 200, 200⟩]] [100, 100] 50).map compareExitCode
      = some 1 ∧
    (1 : Nat) ≠ 2 := by
  refine ⟨?_, ?_, by decide⟩
  · norm_num [compare, slowCount, countVec]
  · norm_num [compare, slowCount, countVec, compareExitCode]

/-- Claim C2 (amended): when no report vector is longer than the baseline,
the comparator returns Ok (rendered as exit 0) if no step exceeds its
baseline duration by more than the threshold, and otherwise Err carrying the
count of slow steps; the process exit code is then 1 — the count is computed
but not propagated into the exit code. -/
theorem c2_compare_result (lrs : List (List Report)) (baseline : List ℚ) (t : ℚ)
    (h : ∀ rv ∈ lrs, rv.length ≤ baseline.length) :
    compare lrs baseline t =
      some (if slowSpec lrs baseline t = 0 then .ok ()
            else .error (slowSpec lrs baseline t)) ∧
    (compare lrs baseline t).map compareExitCode =
      some (if slowSpec lrs baseline t = 0 then 0 else 1) := by
  have hc : compare lrs baseline t =
      some (if slowSpec lrs baseline t = 0 then .ok ()
            else .error (slowSpec lrs baseline t)) := by
    unfold compare
    rw [slowCount_eq_of_le lrs baseline t h]
    rfl
  refine ⟨hc, ?_⟩
  rw [hc]
  by_cases h0 : slowSpec lrs baseline t = 0 <;> simp [h0, compareExitCode]

/-- Claim C2 witness: the amended theorem at a single report vector with one
regressed step (160 against baseline 100, threshold 50). -/
theorem c2_compare_result_witness :
    compare [[⟨"A", 160, 200⟩]] [100] 50 =
      some (if slowSpec [[⟨"A", 160, 200⟩]] [100] 50 = 0 then .ok ()
            else .error (slowSpec [[⟨"A", 160, 200⟩]] [100] 50)) ∧
    (compare [[⟨"A", 160, 200⟩]] [100] 50).map compareExitCode =
      some (if slowSpec [[⟨"A", 160, 200⟩]] [100] 50 = 0 then 0 else 1) :=
  c2_compare_result [[⟨"A", 160, 200⟩]] [100] 50 (by norm_num)

/-! Section: Claim C8 -/

/-- Claim C8 counterexample: a current report vector with two records against
a baseline with a single record: the comparator reads `items[1]` out of
bounds and panics instead of iterating up to the shorter side and completing
normally. -/
theorem c8_counterexample :
    slowCount [[⟨"A", 160, 200⟩, ⟨"B", 200, 200⟩]] [100] 50 = none := by
  norm_num [slowCount, countVec]

/-- Claim C8 (amended): the length mismatch is tolerated in one direction
only — surplus baseline records are ignored (appending to the baseline does
not change the result) and the comparator completes normally whenever no
report vector is longer than the baseline; a report vector longer than the
baseline panics on an out-of-bounds index instead of truncating. -/
theorem c8_mismatch_tolerance (lrs : List (List Report)) (baseline extra : List ℚ)
    (t : ℚ) (h : ∀ rv ∈ lrs, rv.length ≤ baseline.length) :
    (slowCount lrs baseline t).isSome ∧
    slowCount lrs (baseline ++ extra) t = slowCount lrs baseline t := by
  constructor
  · rw [slowCount_eq_of_le lrs baseline t h]
    rfl
  · exact slowCount_append_of_le lrs baseline extra t h

/-- Claim C8 witness: the amended theorem at one report record against a
baseline of one record extended by one surplus record. -/
theorem c8_mismatch_tolerance_witness :
    (slowCount [[⟨"A", 160, 200⟩]] [100] 50).isSome ∧
    slowCount [[⟨"A", 160, 200⟩]] ([100] ++ [7]) 50
      = slowCount [[⟨"A", 160, 200⟩]] [100] 50 :=
  c8_mismatch_tolerance [[⟨"A", 160, 200⟩]] [100] [7] 50 (by norm_num)

/-! Section: Claim C4 -/

/-- Claim C4 counterexample: with explicit global {a ↦ g} and env {a ↦ e},
the merged Config.global holds the env value e for key a, not the explicit
global value g as the claim states. -/
theorem c4_counterexample :
    (mergedGlobal [("a", "g")] [("a", "e")]).lookup "a" = some "e" ∧
    (some "e" : Option String) ≠ some "g" := by
  refine ⟨by decide, by decide⟩

/-- Claim C4 (amended): env entries are merged into `global` with env taking
HIGHER precedence — for every key the merged value is the env value when the
key is in env, and the explicit global value otherwise; keys present only in
env are added. -/
theorem c4_env_precedence (g e : List (String × String))
    (he : (e.map Prod.fst).Nodup) (k : String) :
    (mergedGlobal g e).lookup k = (e.lookup k).or (g.lookup k) := by
  revert he
  induction e generalizing g with
  | nil =>
    intro _
    simp [mergedGlobal, List.lookup, Option.or]
  | cons kv rest ih =>
    intro he
    obtain ⟨k0, v0⟩ := kv
    simp only [List.map_cons, List.nodup_cons] at he
    have step : mergedGlobal g ((k0, v0) :: rest)
        = mergedGlobal (insertOverwrite g k0 v0) rest := rfl
    rw [step, ih (insertOverwrite g k0 v0) he.2, lookup_insertOverwrite,
      lookup_cons]
    by_cases hk : k = k0
    · subst hk
      rw [if_pos rfl, if_pos rfl,
        lookup_eq_none_of_not_mem_keys rest k he.1]
      simp [Option.or]
    · rw [if_neg hk, if_neg hk]

/-- Claim C4 witness: the amended theorem at global = {a ↦ g, b ↦ x},
env = {a ↦ e}, key a. -/
theorem c4_env_precedence_witness :
    (mergedGlobal [("a", "g"), ("b", "x")] [("a", "e")]).lookup "a"
      = (List.lookup "a" [("a", "e")]).or
          (List.lookup "a" [("a", "g"), ("b", "x")]) :=
  c4_env_precedence [("a", "g"), ("b", "x")] [("a", "e")] (by decide) "a"

/-! Section: Claim C7 -/

theorem freshContext_lookup_cookies (it : String) (urls glob : Json) :
    (freshContext it urls glob).lookup "cookies" = none := by
  unfold freshContext ctxInsert
  rw [lookup_insertSorted, if_neg (by decide), lookup_insertSorted,
    if_neg (by decide), lookup_insertSorted, if_neg (by decide)]
  simp [List.lookup]

theorem flatMap_escChar_id (l : List Char) (h : ∀ c ∈ l, c ≠ '"' ∧ c ≠ '\\') :
    l.flatMap escChar = l := by
  induction l with
  | nil => rfl
  | cons c cs ih =>
    have hc := h c (List.mem_cons_self _ _)
    have hcs := fun c' hm => h c' (List.mem_cons_of_mem c hm)
    simp [escChar, hc.1, hc.2, ih hcs]

theorem string_mk_data (s : String) : String.mk s.data = s := rfl

theorem applyCookies_fresh (it : String) (urls glob : Json) (n v : String) :
    (applyCookies (freshContext it urls glob) [(n, v)]).bind cookieHeader
      = some (some (n ++ "=" ++ renderStrLit v)) := by
  have hlk := freshContext_lookup_cookies it urls glob
  simp only [applyCookies, hlk]
  simp only [Option.some_bind]
  unfold cookieHeader ctxInsert
  rw [lookup_insertSorted, if_pos rfl]
  simp only [sortDedupMembers, List.foldl_cons, List.foldl_nil, insertSorted,
    serializeCookies, List.map_cons, List.map_nil, joinSemi, renderJson]

/-- Claim C7 counterexample: after a response sets `Set-Cookie: s=abc`, the
next request's Cookie header is `s="abc"` — the JSON `Display` rendering
keeps the quotes — not `s=abc` as the claim states. -/
theorem c7_counterexample :
    (applyCookies (freshContext "0" (.obj []) (.obj [])) [("s", "abc")]).bind cookieHeader
      = some (some "s=\"abc\"") ∧
    ("s=\"abc\"" : String) ≠ "s=abc" := by
  refine ⟨?_, by decide⟩
  rw [applyCookies_fresh]
  decide

/-- Claim C7 (amended): cookies set by an earlier response are sent by later
requests in the same iteration, but the Cookie header renders each value as
its JSON `Display` form, so after `Set-Cookie: s=abc` the next request
carries `Cookie: s="abc"` (value quoted); the header is attached whenever
the context has a `cookies` entry, and a fresh iteration context has none,
so a new iteration starts with no Cookie header. -/
theorem c7_cookie_flow (it : String) (urls glob : Json) (n v : String)
    (hv : ∀ c ∈ v.data, c ≠ '"' ∧ c ≠ '\\') :
    cookieHeader (freshContext it urls glob) = some none ∧
    (applyCookies (freshContext it urls glob) [(n, v)]).bind cookieHeader
      = some (some (n ++ "=" ++ ("\"" ++ v ++ "\""))) := by
  have hlk := freshContext_lookup_cookies it urls glob
  constructor
  · unfold cookieHeader
    rw [hlk]
  · rw [applyCookies_fresh]
    simp only [renderStrLit, flatMap_escChar_id v.data hv, string_mk_data]

/-- Claim C7 witness: the amended theorem at a fresh context of iteration 0
and the response cookie s = abc. -/
theorem c7_cookie_flow_witness :
    cookieHeader (freshContext "0" (.obj []) (.obj [])) = some none ∧
    (applyCookies (freshContext "0" (.obj []) (.obj [])) [("s", "abc")]).bind cookieHeader
      = some (some ("s" ++ "=" ++ ("\"" ++ "abc" ++ "\""))) :=
  c7_cookie_flow "0" (.obj []) (.obj []) "s" "abc" (by decide)

/-! Section: Claim C9 -/

theorem splitNl_nl (ys : List Char) : splitNl ('\n' :: ys) = [] :: splitNl ys := by
  simp [splitNl]

theorem splitNl_append_nl (xs ys : List Char) (h : '\n' ∉ xs) :
    splitNl (xs ++ '\n' :: ys) = xs :: splitNl ys := by
  induction xs with
  | nil => simp [splitNl]
  | cons c cs ih =>
    simp only [List.mem_cons, not_or] at h
    simp only [List.cons_append, splitNl]
    rw [if_neg (fun hcc => h.1 hcc.symm)]
    simp only [List.append_eq]
    rw [ih h.2]

theorem splitNl_double_append (xs zs ys : List Char) (hx : '\n' ∉ xs)
    (hz : '\n' ∉ zs) :
    splitNl (xs ++ (zs ++ '\n' :: ys)) = (xs ++ zs) :: splitNl ys := by
  rw [← List.append_assoc]
  exact splitNl_append_nl (xs ++ zs) ys (by simp [List.mem_append, hx, hz])

theorem foldl_append_eq (l : List (List Char)) :
    ∀ acc, List.foldl (fun a b => (if a.isEmpty then a else a ++ ([] : List Char)) ++ b) acc l
      = acc ++ l.flatten := by
  induction l with
  | nil => intro acc; simp
  | cons x xs ih =>
    intro acc
    have hstep : (if acc.isEmpty then acc else acc ++ ([] : List Char)) = acc := by
      split <;> simp
    simp only [List.foldl_cons, hstep, ih, List.flatten_cons, List.append_assoc]

theorem writeReports_eq_flatten (rs : List ReportText) :
    writeReports rs = (rs.map reportChars).flatten := by
  unfold writeReports joinFold
  rw [foldl_append_eq]
  simp

theorem parseRecords_flatten (rs : List ReportText)
    (h : ∀ r ∈ rs, '\n' ∉ r.name ∧ '\n' ∉ r.duration ∧ '\n' ∉ r.status) :
    parseRecords (splitNl (rs.map reportChars).flatten) = some rs := by
  induction rs with
  | nil => simp [splitNl, parseRecords]
  | cons r rest ih =>
    obtain ⟨hn, hd, hs⟩ := h r (List.mem_cons_self _ _)
    have hrest := fun r' hm => h r' (List.mem_cons_of_mem r hm)
    have hnamePre : '\n' ∉ namePre := by decide
    have hdurPre : '\n' ∉ durPre := by decide
    have hstaPre : '\n' ∉ staPre := by decide
    simp only [List.map_cons, List.flatten_cons, reportChars, List.cons_append,
      List.append_assoc, List.singleton_append]
    rw [splitNl_nl, splitNl_double_append namePre r.name _ hnamePre hn,
      splitNl_double_append durPre r.duration _ hdurPre hd,
      splitNl_double_append staPre r.status _ hstaPre hs]
    simp only [parseRecords, namePre, durPre, staPre, List.cons_append,
      List.nil_append, stripPre, if_pos rfl, if_true, List.append_eq,
      Option.bind_eq_bind, Option.some_bind, Option.pure_def, ih hrest]

/-- Claim C9 counterexample: a Report whose name contains a newline — here
`a\nb` with duration numeral 1 and status 200 — breaks the round trip: the
emitted text no longer parses back into the record, refuting the claim for
every list of Reports. -/
theorem c9_counterexample :
    parseReportText (writeReports [⟨['a', '\n', 'b'], ['1'], ['2', '0', '0']⟩]) = none ∧
    (none : Option (List ReportText))
      ≠ some [⟨['a', '\n', 'b'], ['1'], ['2', '0', '0']⟩] := by
  refine ⟨by decide, by simp⟩

/-- Claim C9 (amended): for every list of Reports whose rendered fields
contain no newline — duration and status numerals never do, names may —
writing the list with the report writer and re-parsing the text yields the
same (name, duration, status) triples in the same order. -/
theorem c9_roundtrip (rs : List ReportText)
    (h : ∀ r ∈ rs, '\n' ∉ r.name ∧ '\n' ∉ r.duration ∧ '\n' ∉ r.status) :
    parseReportText (writeReports rs) = some rs := by
  unfold parseReportText
  rw [writeReports_eq_flatten]
  exact parseRecords_flatten rs h

/-- Claim C9 witness: the amended theorem at the two-record list
(A, 12.5, 200), (B, 3, 520). -/
theorem c9_roundtrip_witness :
    parseReportText (writeReports
      [⟨['A'], ['1', '2', '.', '5'], ['2', '0', '0']⟩,
       ⟨['B'], ['3'], ['5', '2', '0']⟩]) =
    some [⟨['A'], ['1', '2', '.', '5'], ['2', '0', '0']⟩,
          ⟨['B'], ['3'], ['5', '2', '0']⟩] :=
  c9_roundtrip
    [⟨['A'], ['1', '2', '.', '5'], ['2', '0', '0']⟩,
     ⟨['B'], ['3'], ['5', '2', '0']⟩] (by decide)

/-! Section: Claim C10 -/

theorem eqList_all_true (f : Json → String → Option Bool)
    (ps : List (Json × String)) (h : ∀ p ∈ ps, f p.1 p.2 = some true) :
    eqList f ps = some true := by
  induction ps with
  | nil => rfl
  | cons p rest ih =>
    obtain ⟨l, r⟩ := p
    have h1 := h (l, r) (List.mem_cons_self _ _)
    have h2 := fun p hm => h p (List.mem_cons_of_mem _ hm)
    simp only [eqList, h1]
    exact ih h2

/-- Claim C10 counterexample: at the claim's own example — expected array
[1, 2] against actual array [1, 2, 3] — the assertion does not succeed: the
actual value renders as `[1,2,3]`, which `from_str::<Vec<String>>` cannot
deserialize (the elements are numbers, not strings), so the comparison
panics on `unwrap` instead of zipping up to the shorter side. -/
theorem c10_counterexample :
    assertEq id 10 (.arr [.num 1, .num 2]) (.arr [.num 1, .num 2, .num 3]) = none ∧
    (none : Option Bool) ≠ some true := by
  refine ⟨by decide, by simp⟩

/-- Claim C10 (amended): the zip-and-truncate behaviour holds only when the
rendering of the actual value deserializes as a JSON array of strings: in
that case the expected elements are zipped against the parsed strings,
stopping at the shorter side, and agreement on the common prefix makes the
assertion succeed regardless of any length difference on either side; an
actual array with non-string elements (such as [1,2,3]) makes the
comparison panic instead. -/
theorem c10_array_zip (resolve : String → String) (fuel : Nat) (es : List Json)
    (rhs : String) (ss : List String)
    (hp : parseVecString rhs = some ss)
    (hall : ∀ p ∈ es.zip ss, eqJ resolve fuel p.1 p.2 = some true) :
    eqJ resolve (fuel + 1) (.arr es) rhs = some true := by
  simp only [eqJ, hp, Option.some_bind]
  exact eqList_all_true (eqJ resolve fuel) (es.zip ss) hall

/-- Claim C10 witness: the amended theorem with expected [1, 2] against the
actual string array ["1", "2", "3"] — two elements compared, the surplus
third ignored, assertion succeeds. -/
theorem c10_array_zip_witness :
    parseVecString "[\"1\",\"2\",\"3\"]" = some ["1", "2", "3"] ∧
    eqJ id (5 + 1) (.arr [.num 1, .num 2]) "[\"1\",\"2\",\"3\"]" = some true :=
  ⟨by decide,
   c10_array_zip id 5 [.num 1, .num 2] "[\"1\",\"2\",\"3\"]" ["1", "2", "3"]
     (by decide) (by decide)⟩

end Drill
